import Mathlib

/-!
Verification development for the browser-chess orchestration core.

The definitions below are a shallow embedding of the repository's
JavaScript source:
* `src/src/ai/ChessAI.js` — the engine wrapper (time budgeting, go-command
  construction, termination);
* the main orchestration module (unnamed file `part_000`) — game session
  state, premove execution, the AI think cycle, reset, and the clock
  switching logic.

JavaScript numbers are modelled as rationals (`ℚ`); `Math.round` is
modelled as `fun x => ⌊x + 1/2⌋`, which agrees with JS semantics on the
non-negative values arising here.  Fallible collaborator calls
(`chess.move`, engine search) return `Option`.  The rules engine
(chess.js) and the Stockfish worker are external collaborators; they are
modelled as explicit oracle parameters, matching the spec's instruction
to treat them as interfaces.
-/

namespace Chess

/-- Side to move / piece colour, chess.js `'w'` / `'b'`. -/
inductive Color
  | white
  | black
deriving DecidableEq, Repr

/-- The opposite colour (chess.js flips `turn()` after every applied move). -/
def Color.other : Color → Color
  | .white => .black
  | .black => .white

/-! ## Time management (`ChessAI.js`, `_calculateOptimalTime` / `_handleTimeEmergency`) -/

/-- `this.timeManager.emergencyThreshold` from the `ChessAI` constructor (5000 ms).
In the source it is only read by the `isBullet` classification inside
`_calculateOptimalTime`. -/
def emergencyThreshold : ℚ := 5000

/-- Result record of `_calculateOptimalTime` / `_handleTimeEmergency`:
`{ time, depth, emergency }`.  The normal path returns no `emergency`
field, i.e. a falsy value, modelled as `false`. -/
structure Budget where
  time : ℚ
  depth : ℕ
  emergency : Bool
deriving DecidableEq, Repr

/-- JavaScript `Math.round` for the non-negative values used here. -/
def jsRound (x : ℚ) : ℚ := ((⌊x + 1/2⌋ : ℤ) : ℚ)

/-- `ChessAI._handleTimeEmergency(color, timeLeft)`: below a hard-coded
2000 ms it returns `{ time: Math.max(50, timeLeft - 100), depth: 6,
emergency: true }`, otherwise `null`.  The `color` argument is unused by
the source body and omitted. -/
def handleTimeEmergency (timeLeft : ℚ) : Option Budget :=
  if timeLeft < 2000 then some (Budget.mk (max 50 (timeLeft - 100)) 6 true) else none

/-- `ChessAI._calculateOptimalTime(color, timeLeft, increment, moveNumber)`.
The `!isFinite(timeLeft)` disjunct of the fallback guard cannot fire for a
rational `timeLeft`; the `timeLeft <= 0` disjunct is kept as in the source
(it is unreachable because the emergency branch already caught
`timeLeft < 2000`). -/
def calculateOptimalTime (timeLeft increment moveNumber : ℚ) : Budget :=
  match handleTimeEmergency timeLeft with
  | some e => e
  | none =>
    if timeLeft ≤ 0 then Budget.mk 2000 15 false
    else
      let movesRemaining : ℚ := max 10 (50 - moveNumber)
      let allocated0 : ℚ :=
        if timeLeft < emergencyThreshold then
          max 100 (timeLeft / max 5 (movesRemaining / 2))
        else if timeLeft < 60000 then
          max 200 (timeLeft / max 8 movesRemaining)
        else
          max 1000 (timeLeft / max 12 movesRemaining)
      let allocated1 : ℚ := min (allocated0 + increment * (8/10)) (timeLeft - 100)
      let allocated2 : ℚ := max 50 (min allocated1 (timeLeft - 50))
      let depth : ℕ :=
        if allocated2 < 500 then 8
        else if allocated2 < 1500 then 12
        else if allocated2 < 5000 then 15
        else 18
      Budget.mk (jsRound allocated2) depth false

/-! ## Go-command construction (`ChessAI.js`, `getMove`) -/

/-- The UCI `go` command issued by `getMove`: either `go depth d` or
`go movetime t` (the actual strings in the source interpolate these two
shapes). -/
inductive GoCommand
  | depth (d : ℕ)
  | movetime (t : ℚ)
deriving DecidableEq, Repr

/-- Whether the issued `go` command carries a depth bound. -/
def GoCommand.hasDepthBound : GoCommand → Bool
  | .depth _ => true
  | .movetime _ => false

/-- The `goCommand` selection inside `getMove` over
`searchParams = { maxDepth, time }` (absent fields are `none`).  The
branch order is exactly the source's `if / else if` chain; note that the
source's third branch (`maxDepth && time`, the "both present" case) sits
after the `time`-only branch and is therefore dead code — kept verbatim
here. -/
def buildGoCommand (maxDepth : Option ℕ) (time : Option ℚ) : GoCommand :=
  if maxDepth.isSome && !time.isSome then .depth (maxDepth.getD 15)
  else if time.isSome then .movetime (time.getD 0)
  else if maxDepth.isSome && time.isSome then .movetime (time.getD 0)
  else .depth 15

/-- `getMove` when clock data is supplied: `searchParams.time` and
`searchParams.maxDepth` are both overwritten from
`_calculateOptimalTime`, then the go command is built. -/
def getMoveGoCommand (timeLeft increment moveNumber : ℚ) : GoCommand :=
  let optimal := calculateOptimalTime timeLeft increment moveNumber
  buildGoCommand (some optimal.depth) (some optimal.time)

/-! ## Theorems for the time budget (claims C2 and C3) -/

/-- `Math.round` never exceeds its argument by more than one half. -/
theorem jsRound_le (x : ℚ) : jsRound x ≤ x + 1/2 := by
  unfold jsRound
  exact_mod_cast Int.floor_le (x + 1/2)

/-- Evaluation of the budget at remaining time 50 ms (emergency path,
slice floored at 50 ms). -/
theorem calcOpt_at_50 : calculateOptimalTime 50 0 1 = Budget.mk 50 6 true := by
  unfold calculateOptimalTime handleTimeEmergency
  norm_num [max_def]

/-- The emergency flag of the computed budget is `decide (timeLeft < 2000)`:
the comparison in `_handleTimeEmergency` is the hard-coded 2000 ms. -/
theorem calcOpt_emergency_eq (timeLeft increment moveNumber : ℚ) :
    (calculateOptimalTime timeLeft increment moveNumber).emergency
      = decide (timeLeft < 2000) := by
  unfold calculateOptimalTime handleTimeEmergency
  by_cases h2 : timeLeft < 2000
  · simp [h2]
  · by_cases h0 : timeLeft ≤ 0
    · simp [h2, h0]
    · simp [h2, h0]

/-- Claim C2 fails as stated: at remaining time 50 ms the emergency slice
is floored at 50 ms, which is not strictly less than the remaining time. -/
theorem budget_not_lt_at_50 :
    (calculateOptimalTime 50 0 1).time = 50 ∧
    ¬ ((calculateOptimalTime 50 0 1).time < (50 : ℚ)) := by
  rw [calcOpt_at_50]
  exact ⟨rfl, by norm_num⟩

/-- Claim C2, amended: for every remaining time strictly above the 50 ms
emergency floor (any increment, any move number), the computed time
budget is strictly less than the remaining time. -/
theorem budget_lt_remaining (timeLeft increment moveNumber : ℚ)
    (h : 50 < timeLeft) :
    (calculateOptimalTime timeLeft increment moveNumber).time < timeLeft := by
  unfold calculateOptimalTime handleTimeEmergency
  by_cases h2 : timeLeft < 2000
  · simp only [h2, if_true]
    exact max_lt h (by linarith)
  · have h0 : ¬ timeLeft ≤ 0 := by linarith
    simp only [h2, if_false, h0]
    have htl : (2000 : ℚ) ≤ timeLeft := not_lt.mp h2
    have hclamp :
        max 50 (min (min ((if timeLeft < emergencyThreshold then
            max 100 (timeLeft / max 5 (max 10 (50 - moveNumber) / 2))
          else if timeLeft < 60000 then
            max 200 (timeLeft / max 8 (max 10 (50 - moveNumber)))
          else
            max 1000 (timeLeft / max 12 (max 10 (50 - moveNumber)))) +
            increment * (8/10)) (timeLeft - 100)) (timeLeft - 50))
          ≤ timeLeft - 50 :=
      max_le (by linarith) (min_le_right _ _)
    calc jsRound _ ≤ _ + 1/2 := jsRound_le _
      _ ≤ timeLeft - 50 + 1/2 := by linarith [hclamp]
      _ < timeLeft := by linarith

/-- Witness for `budget_lt_remaining` at remaining time 1800 ms. -/
theorem budget_lt_remaining_witness :
    (50 : ℚ) < 1800 ∧ (calculateOptimalTime 1800 0 1).time < 1800 :=
  ⟨by norm_num, budget_lt_remaining 1800 0 1 (by norm_num)⟩

/-- Claim C3 fails as stated: remaining time 3000 ms is below the
configured `timeManager.emergencyThreshold` (5000 ms), yet emergency mode
does not activate, because `_handleTimeEmergency` compares against a
hard-coded 2000 ms instead. -/
theorem emergency_threshold_counterexample :
    (3000 : ℚ) < emergencyThreshold ∧
    (calculateOptimalTime 3000 0 1).emergency = false := by
  refine ⟨by norm_num [emergencyThreshold], ?_⟩
  rw [calcOpt_emergency_eq]
  simp only [decide_eq_false_iff_not]
  norm_num

/-- Claim C3, amended: emergency mode activates iff remaining time is
below the hard-coded 2000 ms constant of `_handleTimeEmergency` (not the
configured `timeManager.emergencyThreshold` of 5000 ms, which only
selects the bullet regime); whenever it activates the returned depth is
the fixed emergency depth 6; and at remaining time 1800 ms the result is
emergency flag `true`, depth 6, and time 1700 ≤ 1700 ms. -/
theorem emergency_iff_hardcoded (timeLeft increment moveNumber : ℚ) :
    ((calculateOptimalTime timeLeft increment moveNumber).emergency
        = decide (timeLeft < 2000)) ∧
    ((calculateOptimalTime timeLeft increment moveNumber).emergency = false ∨
      (calculateOptimalTime timeLeft increment moveNumber).depth = 6) ∧
    (calculateOptimalTime 1800 0 1 = Budget.mk 1700 6 true ∧
      (calculateOptimalTime 1800 0 1).time ≤ 1700) := by
  have e1800 : calculateOptimalTime 1800 0 1 = Budget.mk 1700 6 true := by
    unfold calculateOptimalTime handleTimeEmergency
    norm_num [max_def]
  refine ⟨calcOpt_emergency_eq timeLeft increment moveNumber, ?_,
    e1800, by rw [e1800]⟩
  by_cases h2 : timeLeft < 2000
  · right
    unfold calculateOptimalTime handleTimeEmergency
    simp [h2]
  · left
    rw [calcOpt_emergency_eq]
    simp [h2]

/-! ## Theorems for the go command (claim C9) -/

/-- Claim C9 fails as stated: with a classical clock (600000 ms left) the
optimal budget has both a time and a depth cap, yet the go command that
`getMove` issues carries no depth bound at all. -/
theorem goCommand_drops_depth :
    (getMoveGoCommand 600000 0 1).hasDepthBound = false := rfl

/-- Claim C9, amended: whenever both a time budget and a depth cap are
present in `searchParams`, the issued search is a `movetime`-only search;
the computed depth cap is never transmitted to the engine (the source's
"both present" branch is unreachable because the `time`-only branch
precedes it). -/
theorem goCommand_both_present_is_movetime (d : ℕ) (t : ℚ) :
    buildGoCommand (some d) (some t) = GoCommand.movetime t ∧
    (buildGoCommand (some d) (some t)).hasDepthBound = false := by
  constructor
  · rfl
  · rfl

/-! ## Engine wrapper lifecycle (`ChessAI.js`: `terminate`, `_sendCommand`) -/

/-- Observable state of a `ChessAI` instance:
* `engine` — the worker handle is non-null;
* `moveResolver` — a `getMove` promise's resolver is stored (pending);
* `resolveReadyAvail` — `this._resolveReady` is non-null;
* `readyResolved` — the readiness promise has been resolved;
* `moveSettled` — some pending `getMove` promise has been settled;
* `sent` — commands actually posted to the worker. -/
structure AIHandle where
  engine : Bool
  moveResolver : Bool
  resolveReadyAvail : Bool
  readyResolved : Bool
  moveSettled : Bool
  sent : List String
deriving DecidableEq, Repr

/-- `ChessAI.terminate()`: when the worker handle is present, terminate it,
null the handle, and invoke `_resolveReady` if still set (the source does
not null `_resolveReady` afterwards, and never touches `moveResolver`).
When the handle is already null the whole body is skipped. -/
def terminate (a : AIHandle) : AIHandle :=
  if a.engine then
    { a with engine := false,
             readyResolved := a.readyResolved || a.resolveReadyAvail }
  else a

/-- `ChessAI._sendCommand(command)`: `if (!this.engine) return;` then post
the command to the worker. -/
def sendCommand (a : AIHandle) (c : String) : AIHandle :=
  if a.engine then { a with sent := a.sent ++ [c] } else a

/-- The `bestmove` branch of `_handleEngineMessage`: settle and clear the
pending `getMove` resolver if one is stored.  (Included to ground the
`moveResolver` / `moveSettled` fields: this message handler — not
`terminate` — is what settles a `getMove` promise.) -/
def handleBestmove (a : AIHandle) : AIHandle :=
  if a.moveResolver then { a with moveResolver := false, moveSettled := true } else a

/-- Claim C10 (confirmed): `terminate()` nulls the engine handle and
resolves a still-pending readiness promise, leaves the pending
`getMove` resolver untouched (neither invoked nor cleared), makes every
subsequent `_sendCommand` a no-op, and is idempotent. -/
theorem terminate_frame (a : AIHandle) (c : String) :
    (terminate a).engine = false ∧
    (terminate a).moveResolver = a.moveResolver ∧
    (terminate a).moveSettled = a.moveSettled ∧
    (terminate a).readyResolved = (a.readyResolved || (a.engine && a.resolveReadyAvail)) ∧
    sendCommand (terminate a) c = terminate a ∧
    terminate (terminate a) = terminate a := by
  unfold terminate sendCommand
  by_cases h : a.engine = true
  · simp [h]
  · simp at h
    simp [h]

/-! ## Search retry and fallback (`makeAIMove`, `searchPromise` closure) -/

/-- Depth of the single retry request:
`Math.max(2, Math.floor((personality.depth || 4) / 2))`. -/
def retryDepth (personalityDepth : Option ℕ) : ℕ :=
  max 2 (personalityDepth.getD 4 / 2)

/-- Time of the single retry request:
`Math.min((personality.timeMs || 1000) * 1.3, (personality.timeMs || 1000) + 500)`. -/
def retryTime (personalityTimeMs : Option ℚ) : ℚ :=
  let t := personalityTimeMs.getD 1000
  min (t * (13/10)) (t + 500)

/-- The `searchPromise` try/catch/catch flow of `makeAIMove`: `primary` is
the outcome of the first `getMove` (`none` = the promise rejected),
`retry` the outcome of the retry request, `fallback` the uniformly chosen
random legal move.  Returns the delivered move together with the number
of retry requests issued. -/
def searchWithRetry (primary retry : Option String) (fallback : String) : String × ℕ :=
  match primary with
  | some m => (m, 0)
  | none =>
    match retry with
    | some m => (m, 1)
    | none => (fallback, 1)

/-- Claim C7 (confirmed): a failing primary search triggers exactly one
retry (and a successful one triggers none), the retry runs at depth
`max 2 ⌊depth/2⌋ ≥ 2` with a time allowance at least the personality's
base time, and the flow always delivers a move — primary result, else
retry result, else the random fallback; no failure is fatal. -/
theorem searchWithRetry_ok (primary retry : Option String) (fallback : String)
    (d : ℕ) (t : ℚ) (ht : 0 ≤ t) :
    (searchWithRetry primary retry fallback).2 = (if primary.isSome then 0 else 1) ∧
    (searchWithRetry primary retry fallback).1 = primary.getD (retry.getD fallback) ∧
    retryDepth (some d) = max 2 (d / 2) ∧
    2 ≤ retryDepth (some d) ∧
    t ≤ retryTime (some t) := by
  refine ⟨?_, ?_, rfl, le_max_left _ _, ?_⟩
  · cases primary <;> cases retry <;> simp [searchWithRetry]
  · cases primary <;> cases retry <;> simp [searchWithRetry]
  · simp only [retryTime, Option.getD_some]
    have h3 : 0 ≤ t * (3/10) := by positivity
    exact le_min (by linarith) (by linarith)

/-- Witness for `searchWithRetry_ok`: both search attempts fail, the
random fallback move is delivered after exactly one retry. -/
theorem searchWithRetry_ok_witness :
    (0 : ℚ) ≤ 900 ∧
    ((searchWithRetry none none "a2a3").2 = 1 ∧
      (searchWithRetry none none "a2a3").1 = "a2a3" ∧
      retryDepth (some 10) = max 2 (10 / 2) ∧
      2 ≤ retryDepth (some 10) ∧
      (900 : ℚ) ≤ retryTime (some 900)) := by
  refine ⟨by norm_num, ?_⟩
  simpa using searchWithRetry_ok none none "a2a3" 10 900 (by norm_num)

/-! ## Blunder substitution (`makeAIMove`, blunder logic) -/

/-- A verbose chess.js move as the orchestrator consumes it: fields
`from`, `to`, `promotion` (the first two renamed, `from` being a Lean
keyword). -/
structure MoveDesc where
  fromSq : String
  toSq : String
  promotion : Option String
deriving DecidableEq, Repr

/-- The coordinate string `m.from + m.to + (m.promotion || '')`. -/
def uciOf (m : MoveDesc) : String :=
  m.fromSq ++ m.toSq ++ m.promotion.getD ""

/-- The blunder substitution body (executed when the blunder probability
fires): filter the legal moves down to those whose coordinate string
differs from the candidate; if any remain, pick the one at the random
index (`k` models `Math.floor(Math.random() * altMoves.length)`),
otherwise keep the candidate. -/
def blunderSubstitute (legalMoves : List MoveDesc) (chosen : String) (k : ℕ) : String :=
  let altMoves := legalMoves.filter (fun m => uciOf m != chosen)
  match altMoves with
  | [] => chosen
  | a :: rest =>
      uciOf ((a :: rest).get ⟨k % (a :: rest).length, Nat.mod_lt _ (Nat.succ_pos _)⟩)

/-- Claim C8 (confirmed): the substituted move's coordinate string equals
the original candidate's exactly when no alternative legal move exists —
so whenever an alternative exists the substitution never reproduces the
candidate, and when none exists the candidate is kept. -/
theorem blunderSubstitute_ne (legalMoves : List MoveDesc) (chosen : String) (k : ℕ) :
    (blunderSubstitute legalMoves chosen k == chosen) =
      (legalMoves.filter (fun m => uciOf m != chosen)).isEmpty := by
  unfold blunderSubstitute
  cases h : legalMoves.filter (fun m => uciOf m != chosen) with
  | nil => simp
  | cons a rest =>
      simp only [List.isEmpty_cons]
      have hmem : (a :: rest).get
          ⟨k % (a :: rest).length, Nat.mod_lt _ (Nat.succ_pos _)⟩
            ∈ legalMoves.filter (fun m => uciOf m != chosen) := by
        rw [h]
        exact List.get_mem _ _ _
      have hp := List.of_mem_filter hmem
      simpa [bne] using hp

/-! ## Game session and orchestration (main module, unnamed `part_000`) -/

/-- A chess.js piece record: `{ color, type }` (`type` is a letter such
as `"p"`). -/
structure Piece where
  color : Color
  ptype : String
deriving DecidableEq, Repr

/-- The rules-engine collaborator (chess.js) as consumed by the
orchestration core.  A position is identified by its applied-move
history; `move` is `chess.move` (`none` = illegal/null), `pieceAt` is
`chess.get`, `terminal` is `chess.isCheckmate() || chess.isDraw()`,
`legalMoves` is `chess.moves({ verbose: true })`. -/
structure RulesEngine where
  move : List String → MoveDesc → Option String
  pieceAt : List String → String → Option Piece
  terminal : List String → Bool
  legalMoves : List String → List MoveDesc

/-- The orchestration-relevant part of the global `gameState` (plus the
chess.js move history standing in for the rules engine's position
handle).  `scheduledAI` counts `setTimeout(makeAIMove, …)` registrations;
clock fields are modelled separately (see `ClockState` below). -/
structure Session where
  history : List String
  turn : Color
  isGameOver : Bool
  isStarted : Bool
  premove : Option MoveDesc
  isThinking : Bool
  lastMove : Option String
  opponentHuman : Bool
  playerColor : Color
  scheduledAI : ℕ
deriving DecidableEq, Repr

/-- The state mutation of a successful `chess.move` followed by
`processMove`: the history grows, side-to-move flips, the move is
recorded as last move.  (The clock-increment part of `processMove` lives
in the separate clock model.) -/
def processMoveApply (s : Session) (mv : String) : Session :=
  { s with history := s.history ++ [mv], turn := s.turn.other, lastMove := some mv }

/-- `updateStatus()`: latch game-over from checkmate/draw (never unlatch),
and when the game is over run `cancelPendingAI()`, which clears
`ai.isThinking`. -/
def updateStatus (R : RulesEngine) (s : Session) : Session :=
  let over := s.isGameOver || R.terminal s.history
  { s with isGameOver := over, isThinking := if over then false else s.isThinking }

/-- The promotion rank checked by the premove auto-queen logic. -/
def promotionRank (c : Color) : String :=
  match c with
  | .white => "8"
  | .black => "1"

/-- The auto-queen step of `attemptPremoveExecution`: if the source
square holds a pawn and the target square ends on its promotion rank,
set `promotion: 'q'`. -/
def autoQueenPremove (R : RulesEngine) (hist : List String) (pm : MoveDesc) : MoveDesc :=
  match R.pieceAt hist pm.fromSq with
  | some p =>
      if p.ptype = "p" && pm.toSq.endsWith (promotionRank p.color) then
        { pm with promotion := some "q" }
      else pm
  | none => pm

/-- The expected history after one premove execution attempt: extended by
the applied move when the rules engine accepts it, unchanged when it
rejects it. -/
def premoveOutcome (R : RulesEngine) (s : Session) (pm : MoveDesc) : List String :=
  match R.move s.history (autoQueenPremove R s.history pm) with
  | some m => s.history ++ [m]
  | none => s.history

/-- `attemptPremoveExecution()`: bail out unless a premove is queued, the
game is running, and it is the premove owner's turn; otherwise auto-queen,
submit to the rules engine, clear the queue slot regardless of success,
and on success run the ordinary move-processing path (`processMove`,
`updateStatus`) and schedule the AI reply (`setTimeout(makeAIMove, 100)`)
when playing against an AI and the game is not over. -/
def attemptPremoveExecution (R : RulesEngine) (s : Session) : Session :=
  match s.premove with
  | none => s
  | some pm =>
    if s.isGameOver ∨ s.turn ≠ s.playerColor then s
    else
      match R.move s.history (autoQueenPremove R s.history pm) with
      | some mres =>
          let s1 := updateStatus R (processMoveApply { s with premove := none } mres)
          if !s1.opponentHuman && !s1.isGameOver then
            { s1 with scheduledAI := s1.scheduledAI + 1 }
          else s1
      | none => { s with premove := none }

/-- The `finally` block of `makeAIMove`: clear `ai.isThinking`, refresh
status (which can latch game-over), and attempt premove execution.
(`renderBoard()` / `updateClockDisplay()` touch only the DOM.) -/
def finallyBlock (R : RulesEngine) (s : Session) : Session :=
  attemptPremoveExecution R (updateStatus R { s with isThinking := false })

/-- `resetGame()`: reset the rules engine to the initial position, cancel
the pending-AI flag, clear game-over, premove, selection and last move,
and return to the setup screen.  The opponent/colour settings survive;
pending `setTimeout` registrations are not cancelled.  (The engine-handle
release is `terminate` in the `AIHandle` model.) -/
def resetGame (s : Session) : Session :=
  { s with history := [], turn := Color.white, isThinking := false,
           isGameOver := false, premove := none, lastMove := none,
           isStarted := false }

/-- Decoding of a coordinate string inside `makeAIMove`:
`slice(0,2)`, `slice(2,4)`, and the promotion letter when present. -/
def parseUci (uci : String) : MoveDesc :=
  MoveDesc.mk (uci.take 2) ((uci.drop 2).take 2)
    (if uci.length > 4 then some ((uci.drop 4).take 1) else none)

/-- The part of `makeAIMove` that runs when the think cycle resumes after
`await Promise.all([delayPromise, searchPromise])`: bail out if no move
was produced or the game-over flag is set, otherwise apply blunder
substitution and submit the move to the rules engine (which may reject a
stale move).  `legalAtStart` is the `legalMoves` list captured before the
suspension; `searchResult` is `aiResult.move`. -/
def resumeThinkCore (R : RulesEngine) (s : Session) (legalAtStart : List MoveDesc)
    (searchResult : Option String) (blunderFires : Bool) (k : ℕ) : Session :=
  match searchResult with
  | none => s
  | some mv =>
    if s.isGameOver then s
    else
      let chosen := if blunderFires then blunderSubstitute legalAtStart mv k else mv
      match R.move s.history (parseUci chosen) with
      | some mres => processMoveApply s mres
      | none => s

/-- The full resumption of a think cycle: the core logic above followed by
the `finally` block. -/
def resumeThink (R : RulesEngine) (s : Session) (legalAtStart : List MoveDesc)
    (searchResult : Option String) (blunderFires : Bool) (k : ℕ) : Session :=
  finallyBlock R (resumeThinkCore R s legalAtStart searchResult blunderFires k)

/-- Outcome of the synchronous prefix of `makeAIMove`: either an early
return (which, the `return` statements being inside the `try`, still runs
the `finally` block) or entry into the think cycle proper. -/
inductive EntryResult
  | guarded (s : Session)
  | started (s : Session)
deriving DecidableEq, Repr

/-- The session state carried by either `EntryResult` alternative. -/
def entrySession : EntryResult → Session
  | .guarded s => s
  | .started s => s

/-- The synchronous prefix of `makeAIMove` up to the first suspension:
the entry guards (game over / already thinking / human opponent / not the
AI's turn), then setting `ai.isThinking`, `updateStatus()`, and the
legal-move availability check.  Every early `return` is routed through
the `finally` block, exactly as in the source's `try … finally`. -/
def makeAIMoveEntry (R : RulesEngine) (s : Session) : EntryResult :=
  if s.isGameOver || s.isThinking then .guarded (finallyBlock R s)
  else if s.opponentHuman then .guarded (finallyBlock R s)
  else if s.turn = s.playerColor then .guarded (finallyBlock R s)
  else
    let s1 := updateStatus R { s with isThinking := true }
    if (R.legalMoves s1.history).isEmpty then .guarded (finallyBlock R s1)
    else .started s1

/-- A deterministic rules-engine stub for concrete scenarios: at the
initial position (empty history) every submitted move is accepted and
recorded by its coordinate string; afterwards everything is rejected;
no terminal positions. -/
def demoRules : RulesEngine :=
  RulesEngine.mk
    (fun h m => if h = [] then some (uciOf m) else none)
    (fun _ _ => none)
    (fun _ => false)
    (fun _ => [])

/-- A session in the middle of an AI think cycle: the AI plays White and
is thinking at the initial position, the human plays Black. -/
def midThinkSession : Session :=
  { history := [], turn := Color.white, isGameOver := false, isStarted := true,
    premove := none, isThinking := true, lastMove := none,
    opponentHuman := false, playerColor := Color.black, scheduledAI := 0 }

/-- A premove is queued for Black at the initial position and it is
Black's turn (guard-passing state for `attemptPremoveExecution`). -/
def premoveSession : Session :=
  { history := [], turn := Color.black, isGameOver := false, isStarted := true,
    premove := some (MoveDesc.mk "d7" "d5" none), isThinking := false,
    lastMove := none, opponentHuman := false, playerColor := Color.black,
    scheduledAI := 0 }

/-- `attemptPremoveExecution` is a no-op when no premove is queued. -/
theorem attemptPremove_noop (R : RulesEngine) (s : Session)
    (h : s.premove = none) : attemptPremoveExecution R s = s := by
  unfold attemptPremoveExecution
  rw [h]

/-- Claim C4 (confirmed): when a premove is queued, the game is running
and it is the owner's turn, the execution attempt empties the premove
slot, extends the history by exactly the applied move when legal and
leaves it unchanged when illegal, and a repeated attempt is a no-op (the
premove is never retried). -/
theorem premove_single_shot (R : RulesEngine) (s : Session) (pm : MoveDesc)
    (h1 : s.premove = some pm) (h2 : s.isGameOver = false)
    (h3 : s.turn = s.playerColor) :
    (attemptPremoveExecution R s).premove = none ∧
    (attemptPremoveExecution R s).history = premoveOutcome R s pm ∧
    attemptPremoveExecution R (attemptPremoveExecution R s) = attemptPremoveExecution R s := by
  have hg : ¬ (s.isGameOver ∨ s.turn ≠ s.playerColor) := by simp [h2, h3]
  have hmain : (attemptPremoveExecution R s).premove = none ∧
      (attemptPremoveExecution R s).history = premoveOutcome R s pm := by
    unfold attemptPremoveExecution premoveOutcome
    rw [h1]
    simp only [if_neg hg]
    cases hm : R.move s.history (autoQueenPremove R s.history pm) with
    | none => simp
    | some mres =>
        simp only []
        split
        · simp [updateStatus, processMoveApply]
        · simp [updateStatus, processMoveApply]
  exact ⟨hmain.1, hmain.2, attemptPremove_noop R _ hmain.1⟩

/-- Witness for `premove_single_shot` on the concrete queued premove
d7→d5 accepted by the rules-engine stub. -/
theorem premove_single_shot_witness :
    premoveSession.premove = some (MoveDesc.mk "d7" "d5" none) ∧
    premoveSession.isGameOver = false ∧
    premoveSession.turn = premoveSession.playerColor ∧
    ((attemptPremoveExecution demoRules premoveSession).premove = none ∧
      (attemptPremoveExecution demoRules premoveSession).history
        = premoveOutcome demoRules premoveSession (MoveDesc.mk "d7" "d5" none) ∧
      attemptPremoveExecution demoRules (attemptPremoveExecution demoRules premoveSession)
        = attemptPremoveExecution demoRules premoveSession) :=
  ⟨rfl, rfl, rfl, premove_single_shot demoRules premoveSession _ rfl rfl rfl⟩

/-- Claim C1 fails on the code (code bug): `resetGame` clears the
game-over flag, and the think-cycle resumption re-validates only
`gameState.isGameOver`; a think cycle whose search resolved `e2e4` before
the reset therefore applies its stale move to the freshly reset position
instead of discarding it. -/
theorem stale_result_applied_after_reset :
    (resetGame midThinkSession).history = ([] : List String) ∧
    (resetGame midThinkSession).isGameOver = false ∧
    (resumeThink demoRules (resetGame midThinkSession) [] (some "e2e4") false 0).history
      = ["e2e4"] := by
  refine ⟨rfl, rfl, ?_⟩
  rfl

/-- Claim C6 fails on the code (code bug): calling `makeAIMove` while a
think cycle is in flight does start no new cycle, but the early `return`
sits inside the `try`, so the `finally` block runs and clears
`ai.isThinking` — the call is not a no-op and the flag does not survive
for the whole duration of the in-flight cycle. -/
theorem reentrant_makeAIMove_not_noop :
    midThinkSession.isThinking = true ∧
    (entrySession (makeAIMoveEntry demoRules midThinkSession)).isThinking = false ∧
    entrySession (makeAIMoveEntry demoRules midThinkSession) ≠ midThinkSession := by
  refine ⟨rfl, rfl, ?_⟩
  intro hcontra
  exact absurd (congrArg Session.isThinking hcontra) (by decide)

/-! ## Clock switching (`startTimer` / `stopTimer` / `updatePlayerInfo`) -/

/-- The interval-timer state of the two side clocks together with the
pieces of game state their logic reads: `whiteRunning` /
`blackRunning` model `gameState.timers.white` / `.black` being non-null
interval ids, `timed` models `settings.timeControl !== "0+0"`. -/
structure ClockState where
  turn : Color
  whiteRunning : Bool
  blackRunning : Bool
  timed : Bool
  gameOver : Bool
deriving DecidableEq, Repr

/-- `startTimer(color)`: installs an interval only when none is running
for that side. -/
def startTimer (c : Color) (s : ClockState) : ClockState :=
  match c with
  | .white => if s.whiteRunning then s else { s with whiteRunning := true }
  | .black => if s.blackRunning then s else { s with blackRunning := true }

/-- `stopTimer(color)`: clears and nulls that side's interval. -/
def stopTimer (c : Color) (s : ClockState) : ClockState :=
  match c with
  | .white => { s with whiteRunning := false }
  | .black => { s with blackRunning := false }

/-- The clock-switch half of `updatePlayerInfo()`: when the session is
timed and not over, start the side-to-move's timer and stop the
other's (`startTimer('w'); stopTimer('b')` or the mirror image). -/
def updatePlayerInfoClocks (s : ClockState) : ClockState :=
  if s.timed && !s.gameOver then
    match s.turn with
    | .white => stopTimer .black (startTimer .white s)
    | .black => stopTimer .white (startTimer .black s)
  else s

/-- Every code path in the source that touches the two interval timers:
* `applyMove` — a successful `chess.move` flips the side-to-move and
  `processMove → updatePlayerInfo` re-aligns the clocks (moves are
  guarded against running after game over);
* `latchGameOver` — checkmate/draw in `updateStatus`, resignation, or a
  tick reaching zero: latch the flag and stop both timers;
* `reset` — `resetGame()`: stop both timers, clear the flag;
* `start` — `setupNewGame() → updatePlayerInfo()`;
* `stop c` — any standalone `stopTimer` call.
`startTimer` is invoked nowhere outside `updatePlayerInfo`. -/
inductive ClockEvent
  | applyMove
  | latchGameOver
  | reset
  | start
  | stop (c : Color)
deriving DecidableEq, Repr

/-- One step of the clock-touching transition system. -/
def stepClock (s : ClockState) (e : ClockEvent) : ClockState :=
  match e with
  | .applyMove => if s.gameOver then s
      else updatePlayerInfoClocks { s with turn := s.turn.other }
  | .latchGameOver => stopTimer .white (stopTimer .black { s with gameOver := true })
  | .reset => stopTimer .white (stopTimer .black { s with gameOver := false })
  | .start => updatePlayerInfoClocks s
  | .stop c => stopTimer c s

/-- The claimed invariant: never are both clocks decrementing, and a
decrementing clock belongs to the current side-to-move (and only exists
in a timed, running game). -/
def clockInvariant (s : ClockState) : Bool :=
  (!(s.whiteRunning && s.blackRunning)) &&
  (!s.whiteRunning || (s.timed && !s.gameOver && (s.turn == Color.white))) &&
  (!s.blackRunning || (s.timed && !s.gameOver && (s.turn == Color.black)))

/-- The clock-switch postcondition: in a timed, running game,
`updatePlayerInfo` leaves exactly the side-to-move's timer running. -/
def clockSwitchSpec (s : ClockState) : Bool :=
  if s.timed && !s.gameOver then
    ((updatePlayerInfoClocks s).whiteRunning == (s.turn == Color.white)) &&
    ((updatePlayerInfoClocks s).blackRunning == (s.turn == Color.black))
  else true

/-- State at page load / before a game starts: no timer is installed. -/
def initClock (timed : Bool) : ClockState :=
  { turn := Color.white, whiteRunning := false, blackRunning := false,
    timed := timed, gameOver := false }

/-- The invariant is preserved by every clock-touching step. -/
theorem clockInvariant_step (s : ClockState) (e : ClockEvent)
    (h : clockInvariant s = true) : clockInvariant (stepClock s e) = true := by
  cases s with
  | mk t wR bR td go =>
    cases e with
    | applyMove =>
        revert h
        cases t <;> cases wR <;> cases bR <;> cases td <;> cases go <;> decide
    | latchGameOver =>
        revert h
        cases t <;> cases wR <;> cases bR <;> cases td <;> cases go <;> decide
    | reset =>
        revert h
        cases t <;> cases wR <;> cases bR <;> cases td <;> cases go <;> decide
    | start =>
        revert h
        cases t <;> cases wR <;> cases bR <;> cases td <;> cases go <;> decide
    | stop c =>
        revert h
        cases c <;> cases t <;> cases wR <;> cases bR <;> cases td <;> cases go <;> decide

/-- The invariant propagates along any event trace. -/
theorem clockInvariant_foldl (evs : List ClockEvent) :
    ∀ s : ClockState, clockInvariant s = true →
      clockInvariant (evs.foldl stepClock s) = true := by
  induction evs with
  | nil => intro s h; simpa using h
  | cons e t ih => intro s h; exact ih _ (clockInvariant_step s e h)

/-- Claim C5 (confirmed): along every trace of clock-touching events from
the initial state, at most one of the two side clocks is decrementing and
the decrementing one matches the side-to-move; moreover the clock switch
performed after each applied move leaves exactly the new mover's timer
running. -/
theorem clock_exclusive (timed : Bool) (evs : List ClockEvent) :
    clockInvariant (evs.foldl stepClock (initClock timed)) = true ∧
    ∀ s : ClockState, clockSwitchSpec s = true := by
  constructor
  · have hinit : clockInvariant (initClock timed) = true := by
      cases timed <;> decide
    exact clockInvariant_foldl evs _ hinit
  · intro s
    cases s with
    | mk t wR bR td go =>
        cases t <;> cases wR <;> cases bR <;> cases td <;> cases go <;> decide

end Chess
